import Mathlib

/-!
Shallow embedding of `src/app.py`, the fantasy-hockey category comparison
tool.  A pandas `DataFrame` of player statistics is modelled as a list of
rows; a cell that is `NaN`/missing in pandas is modelled as `none`, and the
pandas conventions the code relies on (column sums skip missing values,
`rank(pct=True)` uses average ranks over the non-missing values, `isin`
tests exact membership) are spelled out explicitly in the definitions.
Numeric stat values are rationals.
-/

namespace FantasyHockey

/-- One row of the stats table: a player name together with the row's
category cells.  A category absent from `stats` is a missing (`NaN`) cell. -/
structure Row where
  name : String
  stats : List (String × ℚ)
deriving DecidableEq

/-- Reading a cell: the first entry of the row's mapping for the category,
`none` when the category is absent from the row. -/
def getStat (r : Row) (c : String) : Option ℚ :=
  (r.stats.find? (fun p => p.1 == c)).map Prod.snd

/-- pandas column sum with the default `skipna=True`: missing cells
contribute nothing, so summing `(getStat r c).getD 0` over the rows is
exact. -/
def colSum (rows : List Row) (c : String) : ℚ :=
  (rows.map (fun r => (getStat r c).getD 0)).sum

/-- `aggregate_players` from `src/app.py` (lines 60-65), per category:
with an empty selection it returns the zero series, otherwise it sums the
column over the rows whose `name` is in the selected list (`isin`). -/
def aggregate_players (df : List Row) (players : List String) (c : String) : ℚ :=
  if players = [] then 0
  else colSum (df.filter (fun r => players.contains r.name)) c

/-- The non-missing values of a column, in row order. -/
def colVals (df : List Row) (c : String) : List ℚ :=
  df.filterMap (fun r => getStat r c)

/-- pandas `rank(pct=True)` of a present value `v` in column `c`:
average rank of the tie group divided by the number of non-missing values.
The tie group occupies ranks `#lt + 1 .. #le`, whose average is
`(#lt + #le + 1) / 2`. -/
def rankPct (df : List Row) (c : String) (v : ℚ) : ℚ :=
  ((((colVals df c).filter (fun x => decide (x < v))).length
      + ((colVals df c).filter (fun x => decide (x ≤ v))).length + 1 : ℕ) : ℚ)
    / ((2 * (colVals df c).length : ℕ) : ℚ)

/-- The percentile cell of one row (line 155, `rank(pct=True) * 100`):
missing for a missing cell, otherwise the percent-scaled average rank. -/
def rowPct (df : List Row) (c : String) (r : Row) : Option ℚ :=
  (getStat r c).map (fun v => 100 * rankPct df c v)

/-- The percentile column built on line 155, aligned with the rows of
`df`. -/
def pctTable (df : List Row) (c : String) : List (Option ℚ) :=
  df.map (fun r => rowPct df c r)

/-- Lines 156-157: select the percentile rows whose player name is in the
side's list (`.loc[df['name'].isin(...)]`) and sum them (`skipna`, so a
missing percentile contributes nothing). -/
def sidePercentile (df : List Row) (players : List String) (c : String) : ℚ :=
  (((df.zip (pctTable df c)).filter (fun p => players.contains p.1.name)).map
    (fun p => p.2.getD 0)).sum

/-- Line 187: `(side_a_stats > side_b_stats).sum()` over the category
index. -/
def category_wins_a (cols : List String) (a b : String → ℚ) : ℕ :=
  (cols.filter (fun c => decide (b c < a c))).length

/-- Line 188: `(side_b_stats > side_a_stats).sum()`. -/
def category_wins_b (cols : List String) (a b : String → ℚ) : ℕ :=
  (cols.filter (fun c => decide (a c < b c))).length

/-- Line 189: `(side_a_stats == side_b_stats).sum()`. -/
def category_ties (cols : List String) (a b : String → ℚ) : ℕ :=
  (cols.filter (fun c => decide (a c = b c))).length

/-- The three mutually exclusive outcomes printed on lines 196-201. -/
inductive Outcome where
  | sideAWins
  | sideBWins
  | tie
deriving DecidableEq

/-- Lines 196-201: `if category_wins_a > category_wins_b` then Side A,
`elif category_wins_b > category_wins_a` then Side B, else tie. -/
def overall_winner (wa wb : ℕ) : Outcome :=
  if wb < wa then Outcome.sideAWins
  else if wa < wb then Outcome.sideBWins
  else Outcome.tie

/-- The structured output assembled by the module-level comparison block
(lines 151-201): per-category aggregates and percentiles for each side,
the win tally, and the overall outcome. -/
structure ComparisonResult where
  sideA : List (String × ℚ)
  sideB : List (String × ℚ)
  pctA : List (String × ℚ)
  pctB : List (String × ℚ)
  winsA : ℕ
  winsB : ℕ
  ties : ℕ
  outcome : Outcome
deriving DecidableEq

/-- The module-level comparison block of `src/app.py` (lines 151-201) as a
function of its inputs: the table, the two selected-name lists and the
numeric columns. -/
def runComparison (df : List Row) (pa pb : List String) (cols : List String) :
    ComparisonResult :=
  let sa : String → ℚ := fun c => aggregate_players df pa c
  let sb : String → ℚ := fun c => aggregate_players df pb c
  let wa := category_wins_a cols sa sb
  let wb := category_wins_b cols sa sb
  { sideA := cols.map (fun c => (c, sa c))
    sideB := cols.map (fun c => (c, sb c))
    pctA := cols.map (fun c => (c, sidePercentile df pa c))
    pctB := cols.map (fun c => (c, sidePercentile df pb c))
    winsA := wa
    winsB := wb
    ties := category_ties cols sa sb
    outcome := overall_winner wa wb }

/-- A fetched player record: `id` and `name` as produced by
`fetch_nhl_players` (position and team play no role in the claims). -/
structure PlayerInfo where
  id : ℕ
  name : String
deriving DecidableEq

/-- Look up a category in a fetched stats dictionary. -/
def statLookup (stats : List (String × ℚ)) (c : String) : Option ℚ :=
  (stats.find? (fun p => p.1 == c)).map Prod.snd

/-- The numeric columns of the stats frame built on line 54: every
category key appearing in some fetched dictionary (each occurring once). -/
def statColumns (players : List PlayerInfo) (stats : ℕ → List (String × ℚ)) :
    List String :=
  (players.flatMap (fun p => (stats p.id).map Prod.fst)).dedup

/-- One merged-and-filled row of `build_full_stats_df`: the player's cell
for every stats column, with a category missing from the player's fetched
dictionary filled in as `0` (line 57, `fillna(0)` on the numeric columns). -/
def buildRow (stats : ℕ → List (String × ℚ)) (cols : List String)
    (p : PlayerInfo) : Row :=
  { name := p.name
    stats := cols.map (fun c => (c, (statLookup (stats p.id) c).getD 0)) }

/-- `build_full_stats_df` from `src/app.py` (lines 45-58): fetch the stats
dictionary of each player, assemble the stats frame, left-merge on `id`
and fill the missing numeric cells with `0`. -/
def build_full_stats_df (players : List PlayerInfo)
    (stats : ℕ → List (String × ℚ)) : List Row :=
  players.map (buildRow stats (statColumns players stats))

/-- The non-missing values of a category over a replacement pool. -/
def poolValues (pool : List Row) (c : String) : List ℚ :=
  pool.filterMap (fun r => getStat r c)

/-- Mean of a list of values (0 on the empty list, whose sum is 0 and
whose length-cast is 0). -/
def poolMean (vs : List ℚ) : ℚ :=
  vs.sum / (vs.length : ℚ)

/-- Population variance (divide by N, not N-1). -/
def popVar (vs : List ℚ) : ℚ :=
  (vs.map (fun x => (x - poolMean vs) ^ 2)).sum / (vs.length : ℚ)

/-- Modelled from the spec: the Standardization Engine of §4.3 is not
implemented in `src/app.py`; this is its z-score, faithful to the spec's
words.  "If standard deviation is zero (no variance, e.g. a single-row
pool, or a category that is constant) or all pool values for that category
are absent, every target row's standardized value for that category is
defined as exactly 0"; otherwise it is
(raw value − pool mean) / pool population standard deviation.  The
standard deviation is the real square root of the population variance, and
it is zero exactly when the variance is, so the zero branch tests the
variance. -/
noncomputable def zscore (pool : List Row) (c : String) (x : ℚ) : ℝ :=
  if poolValues pool c = [] ∨ popVar (poolValues pool c) = 0 then 0
  else ((x : ℝ) - ((poolMean (poolValues pool c) : ℚ) : ℝ))
    / Real.sqrt ((popVar (poolValues pool c) : ℚ) : ℝ)

/-- Modelled from the spec: the standardized value the engine of §4.3
assigns to a target row for a category — "rows lacking the raw value for
that category also receive 0 for that category". -/
noncomputable def stdValue (pool : List Row) (c : String) (r : Row) : ℝ :=
  match getStat r c with
  | none => 0
  | some x => zscore pool c x

/-- `aggregate_players` with the dataframe threaded through as state: the
pandas operations it performs (`df['name']`, `isin`, boolean-mask
selection — which copies — column selection and `sum`) leave the input
frame untouched, so each step passes the frame along unchanged; the
function returns the freshly built series together with the final state of
the frame. -/
def aggregate_players_run (df : List Row) (players : List String)
    (cols : List String) : List (String × ℚ) × List Row :=
  if players = [] then (cols.map (fun c => (c, (0 : ℚ))), df)
  else
    let subset := df.filter (fun r => players.contains r.name)
    (cols.map (fun c => (c, colSum subset c)), df)

/-- The percentile the claim describes: the fraction of rows of the full
table whose value in the category is at most the side's aggregate value,
scaled to 0-100.  This definition follows the claim's words, for
comparison with `sidePercentile`, which follows the code. -/
def claimPercentile (df : List Row) (players : List String) (c : String) : ℚ :=
  100 * (((df.filter (fun r =>
      (getStat r c).getD 0 ≤ aggregate_players df players c)).length : ℚ)
    / (df.length : ℚ))

/-- A two-row table: player `p` with 1 goal, player `q` with 2. -/
def exDf : List Row :=
  [{ name := "p", stats := [("G", 1)] }, { name := "q", stats := [("G", 2)] }]

/-- A table with two distinct players sharing the name `p`. -/
def dupDf : List Row :=
  [{ name := "p", stats := [("G", 1)] }, { name := "p", stats := [("G", 2)] },
    { name := "q", stats := [("G", 4)] }]

/-- A three-row replacement pool whose `G` column is constant. -/
def exPool : List Row :=
  [{ name := "a", stats := [("G", 10)] }, { name := "b", stats := [("G", 10)] },
    { name := "c", stats := [("G", 10)] }]

/-- Two fetched players. -/
def exPlayers : List PlayerInfo := [⟨1, "p"⟩, ⟨2, "q"⟩]

/-- Fetched stats: player 1 has a goal count, player 2's dictionary is
empty (the stat is missing at the source). -/
def exStats : ℕ → List (String × ℚ) :=
  fun i => if i = 1 then [("G", 3)] else []

/-! ## Helper lemmas -/

/-- Zipping a list with a mapped copy of itself, filtering on the first
component and summing a function of the second is a single per-element
sum. -/
theorem zip_map_filter_sum (players : List String) (f : Row → Option ℚ)
    (l : List Row) :
    (((l.zip (l.map f)).filter (fun p => players.contains p.1.name)).map
      (fun p => p.2.getD 0)).sum
    = (l.map (fun r =>
        if players.contains r.name then (f r).getD 0 else 0)).sum := by
  induction l with
  | nil => rfl
  | cons a l ih =>
    simp only [List.map_cons, List.zip_cons_cons, List.filter_cons]
    by_cases h : players.contains a.name
    · simp only [h, if_true, List.map_cons, List.sum_cons, ih]
    · simp only [h, Bool.false_eq_true, if_false, List.map_cons, List.sum_cons,
        ih, zero_add]

/-- A filtered column sum is the sum of the guarded per-row values. -/
theorem colSum_filter_eq (players : List String) (c : String) (l : List Row) :
    colSum (l.filter (fun r => players.contains r.name)) c
    = (l.map (fun r =>
        if players.contains r.name then (getStat r c).getD 0 else 0)).sum := by
  induction l with
  | nil => rfl
  | cons a l ih =>
    simp only [List.filter_cons]
    by_cases h : players.contains a.name
    · simp only [h, if_true, colSum, List.map_cons, List.sum_cons] at ih ⊢
      rw [ih]
    · simp only [h, Bool.false_eq_true, if_false, List.map_cons, List.sum_cons,
        ih, zero_add]

/-- `find?` over a key-value list built from a key list finds the first
occurrence of a present key together with its value. -/
theorem find?_map_pair (f : String → ℚ) (c : String) (cols : List String)
    (hc : c ∈ cols) :
    (cols.map (fun c0 => (c0, f c0))).find? (fun q => q.1 == c)
      = some (c, f c) := by
  induction cols with
  | nil => cases hc
  | cons a l ih =>
    simp only [List.map_cons, List.find?_cons]
    by_cases h : a = c
    · subst h
      simp
    · have hb : ((a, f a).1 == c) = false := by
        simp [h]
      rw [hb]
      rcases List.mem_cons.1 hc with h1 | h1
      · exact absurd h1.symm h
      · exact ih h1

/-! ## Claims -/

/-- C1 (counterexample): the reported side percentile is NOT the fraction
of rows whose column value is at most the side's aggregate, scaled to
0-100.  On a two-row table with `G` values 1 and 2 and both players
selected, the aggregate is 3 and every row's value is at most it, so the
claim's formula gives 100; the code sums the two players' percentile
ranks (50 and 100) and reports 150. -/
theorem claim_C1_counterexample :
    sidePercentile exDf ["p", "q"] "G" ≠ claimPercentile exDf ["p", "q"] "G" := by
  have hagg : aggregate_players exDf ["p", "q"] "G" = 3 := by
    norm_num [aggregate_players, colSum, getStat, exDf, List.filter, List.find?]
    decide
  have h1 : sidePercentile exDf ["p", "q"] "G" = 150 := by
    norm_num [sidePercentile, pctTable, rowPct, rankPct, colVals, getStat, exDf,
      List.zip, List.zipWith, List.filter, List.find?, List.filterMap]
  have h2 : claimPercentile exDf ["p", "q"] "G" = 100 := by
    simp only [claimPercentile, hagg]
    norm_num [exDf, getStat, List.filter, List.find?, decide_eq_true_eq]
  rw [h1, h2]
  norm_num

/-- C1 (amended): for every table, side and category, the reported side
percentile is the sum, over the rows whose name is in the side's selected
list, of that row's average-rank percentile in the full column (`rowPct`,
`rank(pct=True) * 100`), rows with a missing value contributing nothing —
a sum of per-player percentile ranks, not a percentile of the side's
aggregate. -/
theorem claim_C1_amended (df : List Row) (players : List String) (c : String) :
    sidePercentile df players c
      = (df.map (fun r =>
          if players.contains r.name then (rowPct df c r).getD 0 else 0)).sum := by
  unfold sidePercentile pctTable
  exact zip_map_filter_sum players (rowPct df c) df

/-- C2: the category-win tally counts a category as a win for Side A
exactly when A's aggregate is strictly greater than B's, as a win for
Side B exactly when B's is strictly greater, and as a tie exactly when
they are equal (the counting recurrences), and the three tallies
partition the compared categories:
wins(A) + wins(B) + ties = number of categories. -/
theorem claim_C2_win_tally (cols : List String) (a b : String → ℚ)
    (c : String) :
    (category_wins_a (c :: cols) a b
        = (if b c < a c then 1 else 0) + category_wins_a cols a b)
    ∧ (category_wins_b (c :: cols) a b
        = (if a c < b c then 1 else 0) + category_wins_b cols a b)
    ∧ (category_ties (c :: cols) a b
        = (if a c = b c then 1 else 0) + category_ties cols a b)
    ∧ category_wins_a cols a b + category_wins_b cols a b
        + category_ties cols a b = cols.length := by
  refine ⟨?_, ?_, ?_, ?_⟩
  · simp only [category_wins_a, List.filter_cons]
    by_cases h : b c < a c <;> simp [h, Nat.add_comm]
  · simp only [category_wins_b, List.filter_cons]
    by_cases h : a c < b c <;> simp [h, Nat.add_comm]
  · simp only [category_ties, List.filter_cons]
    by_cases h : a c = b c <;> simp [h, Nat.add_comm]
  · induction cols with
    | nil => rfl
    | cons d l ih =>
      simp only [category_wins_a, category_wins_b, category_ties,
        List.filter_cons, List.length_cons] at ih ⊢
      rcases lt_trichotomy (a d) (b d) with h | h | h
      · have h1 : ¬ b d < a d := not_lt_of_gt h
        have h2 : a d ≠ b d := ne_of_lt h
        simp [h, h1, h2]
        omega
      · have h1 : ¬ b d < a d := by rw [h]; exact lt_irrefl _
        have h2 : ¬ a d < b d := by rw [h]; exact lt_irrefl _
        simp [h, h1, h2]
        omega
      · have h1 : ¬ a d < b d := not_lt_of_gt h
        have h2 : a d ≠ b d := ne_of_gt h
        simp [h, h1, h2]
        omega

/-- C3: the overall outcome is Side A exactly when A has strictly more
category wins, Side B exactly when B has strictly more, and a tie exactly
when the win counts are equal; the three outcome values are pairwise
distinct. -/
theorem claim_C3_overall_winner (wa wb : ℕ) :
    (overall_winner wa wb = Outcome.sideAWins ↔ wb < wa)
    ∧ (overall_winner wa wb = Outcome.sideBWins ↔ wa < wb)
    ∧ (overall_winner wa wb = Outcome.tie ↔ wa = wb)
    ∧ Outcome.sideAWins ≠ Outcome.sideBWins
    ∧ Outcome.sideAWins ≠ Outcome.tie
    ∧ Outcome.sideBWins ≠ Outcome.tie := by
  unfold overall_winner
  split_ifs with h1 h2 <;>
    refine ⟨?_, ?_, ?_, by simp, by simp, by simp⟩ <;> simp_all <;> omega

/-- C4: aggregating an empty selection yields 0 for every category and
raises no error (the function is total), and against an empty Side B the
per-category win condition of the code (`B < A`) holds in every category
where Side A's aggregate is positive. -/
theorem claim_C4_empty_side (df : List Row) (c : String) :
    aggregate_players df [] c = 0
    ∧ ∀ pa : List String, 0 < aggregate_players df pa c →
        aggregate_players df [] c < aggregate_players df pa c := by
  refine ⟨rfl, fun pa h => ?_⟩
  simpa [aggregate_players] using h

/-- Witness for C4 at a concrete table: Side A `["p"]` has aggregate
`G = 1 > 0`, and indeed beats the empty Side B in that category. -/
theorem claim_C4_empty_side_witness :
    0 < aggregate_players exDf ["p"] "G"
    ∧ aggregate_players exDf [] "G" < aggregate_players exDf ["p"] "G" := by
  have h : 0 < aggregate_players exDf ["p"] "G" := by
    have hv : aggregate_players exDf ["p"] "G" = 1 := by
      norm_num [aggregate_players, colSum, getStat, exDf, List.filter,
        List.find?]
      decide
    rw [hv]
    norm_num
  exact ⟨h, (claim_C4_empty_side exDf "G").2 ["p"] h⟩

/-- C5: for every replacement pool and category whose pool values are all
absent or have zero population variance (equivalently, zero population
standard deviation — including a single-row pool or a constant category),
the standardized value of every target row for that category is exactly 0,
regardless of the row's raw value. -/
theorem claim_C5_zero_variance (pool : List Row) (c : String)
    (h : poolValues pool c = [] ∨ popVar (poolValues pool c) = 0) (r : Row) :
    stdValue pool c r = 0 := by
  unfold stdValue
  cases getStat r c with
  | none => rfl
  | some x =>
    simp only [zscore]
    rw [if_pos h]

/-- Witness for C5: a three-row pool whose `G` column is the constant 10
has zero population variance, and a target row with `G = 30` is
standardized to 0. -/
theorem claim_C5_zero_variance_witness :
    popVar (poolValues exPool "G") = 0
    ∧ stdValue exPool "G" { name := "t", stats := [("G", 30)] } = 0 := by
  have h : popVar (poolValues exPool "G") = 0 := by
    norm_num [popVar, poolMean, poolValues, exPool, getStat, List.filterMap,
      List.find?]
  exact ⟨h, claim_C5_zero_variance exPool "G" (Or.inr h) _⟩

/-- C6 (counterexample): in `build_full_stats_df`, a category missing
from a player's fetched stats is NOT kept absent: player 2's fetched
dictionary has no `G` entry, yet their row in the built table carries
`G = 0` — the code unconditionally zero-fills (`fillna(0)`), with no
configuration to do otherwise. -/
theorem claim_C6_counterexample :
    statLookup (exStats 2) "G" = none
    ∧ (build_full_stats_df exPlayers exStats).get? 1
        = some { name := "q", stats := [("G", 0)] }
    ∧ getStat { name := "q", stats := [("G", 0)] } "G" = some 0 :=
  ⟨rfl, rfl, rfl⟩

/-- C6 (amended): every row of the table built by `build_full_stats_df`
carries a present value for every stats column: the row of player `p` maps
each column `c` to `some` of the fetched value when the player's
dictionary has `c`, and to `some 0` — the unconditional zero default —
when it does not. -/
theorem claim_C6_amended (players : List PlayerInfo)
    (stats : ℕ → List (String × ℚ)) (r : Row)
    (hr : r ∈ build_full_stats_df players stats) (c : String)
    (hc : c ∈ statColumns players stats) :
    ∃ p, p ∈ players ∧ r = buildRow stats (statColumns players stats) p
      ∧ getStat r c = some ((statLookup (stats p.id) c).getD 0) := by
  obtain ⟨p, hp, hpr⟩ := List.mem_map.1 hr
  refine ⟨p, hp, hpr.symm, ?_⟩
  rw [← hpr]
  unfold getStat buildRow
  rw [find?_map_pair (fun c0 => (statLookup (stats p.id) c0).getD 0) c
    (statColumns players stats) hc]
  rfl

/-- Witness for C6 (amended) at the concrete fixture: player `q`'s row is
in the built table, `G` is a stats column, and the row's `G` cell is the
zero-filled `some 0`. -/
theorem claim_C6_amended_witness :
    ∃ p, p ∈ exPlayers
      ∧ ({ name := "q", stats := [("G", 0)] } : Row)
          = buildRow exStats (statColumns exPlayers exStats) p
      ∧ getStat { name := "q", stats := [("G", 0)] } "G"
          = some ((statLookup (exStats p.id) "G").getD 0) :=
  claim_C6_amended exPlayers exStats _
    (List.Mem.tail _ (List.Mem.head _)) "G" (List.Mem.head _)

/-- C7 (counterexample): with an empty category set the comparison block
does not raise any error — there is no `EmptyCategorySetError` in the
code — it proceeds and produces the vacuous result: empty per-category
lists, zero tallies, and an overall tie. -/
theorem claim_C7_counterexample :
    runComparison exDf ["p"] ["q"] [] =
      { sideA := [], sideB := [], pctA := [], pctB := [],
        winsA := 0, winsB := 0, ties := 0, outcome := Outcome.tie } :=
  rfl

/-- C7 (amended): for every table and every pair of selections, running
the comparison with an empty category set proceeds without error and
yields the vacuous result: empty aggregate and percentile lists, zero
category wins for each side, zero ties, and an overall tie. -/
theorem claim_C7_amended (df : List Row) (pa pb : List String) :
    runComparison df pa pb [] =
      { sideA := [], sideB := [], pctA := [], pctB := [],
        winsA := 0, winsB := 0, ties := 0, outcome := Outcome.tie } :=
  rfl

/-- C8: determinism — the aggregation, percentile and win-tally
computations, and the comparison block as a whole, are pure functions of
their declared inputs: two invocations on identical inputs produce
identical outputs, with no hidden state or randomness (the embedding
threads no state at all). -/
theorem claim_C8_deterministic (df1 df2 : List Row)
    (pa1 pa2 pb1 pb2 cols1 cols2 : List String) (c : String)
    (hdf : df1 = df2) (hpa : pa1 = pa2) (hpb : pb1 = pb2)
    (hcols : cols1 = cols2) :
    aggregate_players df1 pa1 c = aggregate_players df2 pa2 c
    ∧ sidePercentile df1 pa1 c = sidePercentile df2 pa2 c
    ∧ category_wins_a cols1 (fun x => aggregate_players df1 pa1 x)
        (fun x => aggregate_players df1 pb1 x)
      = category_wins_a cols2 (fun x => aggregate_players df2 pa2 x)
        (fun x => aggregate_players df2 pb2 x)
    ∧ runComparison df1 pa1 pb1 cols1 = runComparison df2 pa2 pb2 cols2 := by
  subst hdf hpa hpb hcols
  exact ⟨rfl, rfl, rfl, rfl⟩

/-- Witness for C8: two invocations on the concrete fixture agree. -/
theorem claim_C8_deterministic_witness :
    aggregate_players exDf ["p"] "G" = aggregate_players exDf ["p"] "G"
    ∧ sidePercentile exDf ["p"] "G" = sidePercentile exDf ["p"] "G"
    ∧ category_wins_a ["G"] (fun x => aggregate_players exDf ["p"] x)
        (fun x => aggregate_players exDf ["q"] x)
      = category_wins_a ["G"] (fun x => aggregate_players exDf ["p"] x)
        (fun x => aggregate_players exDf ["q"] x)
    ∧ runComparison exDf ["p"] ["q"] ["G"]
        = runComparison exDf ["p"] ["q"] ["G"] :=
  claim_C8_deterministic exDf exDf ["p"] ["p"] ["q"] ["q"] ["G"] ["G"] "G"
    rfl rfl rfl rfl

/-- C9: `aggregate_players` does not mutate its input — threading the
dataframe through its (non-mutating) pandas operations returns the frame
unchanged — and its result is a freshly built series whose entry at each
category is the pure aggregate. -/
theorem claim_C9_no_mutation (df : List Row) (players : List String)
    (cols : List String) :
    (aggregate_players_run df players cols).2 = df
    ∧ (aggregate_players_run df players cols).1
        = cols.map (fun c => (c, aggregate_players df players c)) := by
  unfold aggregate_players_run aggregate_players
  by_cases h : players = [] <;> simp [h]

/-- C10: side membership is exact name equality — for a non-empty
selection the aggregate is the sum over ALL rows whose name is in the
list (so two distinct rows sharing a selected name both contribute), and
a selected name matching no row can be added without changing the
aggregate and without error. -/
theorem claim_C10_name_matching (df : List Row) (players : List String)
    (c : String) (n : String) :
    (players ≠ [] →
      aggregate_players df players c
        = (df.map (fun r =>
            if players.contains r.name then (getStat r c).getD 0 else 0)).sum)
    ∧ ((∀ r ∈ df, r.name ≠ n) →
        aggregate_players df (n :: players) c
          = aggregate_players df players c) := by
  constructor
  · intro h
    unfold aggregate_players
    rw [if_neg h]
    exact colSum_filter_eq players c df
  · intro hn
    unfold aggregate_players
    rw [if_neg (List.cons_ne_nil n players)]
    have hfilter : df.filter (fun r => (n :: players).contains r.name)
        = df.filter (fun r => players.contains r.name) := by
      apply List.filter_congr
      intro r hr
      simp only [List.contains_cons]
      have : (r.name == n) = false := by
        simp [hn r hr]
      rw [this, Bool.false_or]
    rw [hfilter]
    by_cases h : players = []
    · subst h
      rw [if_pos rfl]
      have : df.filter (fun r => ([] : List String).contains r.name) = [] := by
        simp [List.contains]
      rw [this]
      rfl
    · rw [if_neg h]

/-- Witness for C10 on a table with two distinct players named `p`: the
aggregate over selection `["p"]` sums both of their `G` values (1 + 2 = 3),
and adding the unmatched name `z` changes nothing. -/
theorem claim_C10_name_matching_witness :
    aggregate_players dupDf ["p"] "G"
      = (dupDf.map (fun r =>
          if (["p"] : List String).contains r.name
          then (getStat r "G").getD 0 else 0)).sum
    ∧ aggregate_players dupDf ("z" :: ["p"]) "G"
        = aggregate_players dupDf ["p"] "G"
    ∧ aggregate_players dupDf ["p"] "G" = 3 := by
  refine ⟨(claim_C10_name_matching dupDf ["p"] "G" "z").1 (by decide),
    (claim_C10_name_matching dupDf ["p"] "G" "z").2 ?_, ?_⟩
  · intro r hr
    fin_cases hr <;> decide
  · unfold aggregate_players
    rw [if_neg (by decide : ¬ (["p"] : List String) = [])]
    rw [show dupDf.filter (fun r => (["p"] : List String).contains r.name)
        = [{ name := "p", stats := [("G", 1)] },
            { name := "p", stats := [("G", 2)] }]
      from by decide]
    norm_num [colSum, getStat, List.find?]

end FantasyHockey
